import Mathlib

namespace PolymarketScanner

/-!
# Verification of the polymarket-winner-scanner core pipeline

Shallow embedding of the account-evaluation pipeline:
the Metrics Calculator (`PolymarketCollector.calculateMetrics`),
the Scorer (`AccountScorer.score` in its two variants), the Selector
(`AccountSelector.select`), the Retry Policy
(`RetryHandler.executeWithRetry`), the paginated activity fetch
(`PolymarketCollector._fetchAllActivity`) and the two-phase collection
loop of `runner.js`.

JavaScript numbers are modelled as `ℚ` (or `ℝ` where the code takes a
base-10 logarithm); a field that can be `null`/`undefined` is modelled as
an `Option`.  JS comparisons against possibly-missing fields
(`p.realizedPnl > 0` is `false` when the field is absent) are modelled by
explicit `Option` matches.
-/

/-! ## Raw record types (only the fields the core reads) -/

/-- An open position record (`/positions` row): the calculator reads
`cashPnl` and `realizedPnl`. -/
structure Position where
  cashPnl : Option ℚ
  realizedPnl : Option ℚ
  deriving DecidableEq, Repr

/-- A settled position record (`/closed-positions` row): the calculator
reads `realizedPnl`. -/
structure ClosedPosition where
  realizedPnl : Option ℚ
  deriving DecidableEq, Repr

/-- An activity record (`/activity` row): the collector reads `usdcSize`
and `timestamp`. -/
structure ActivityRecord where
  usdcSize : Option ℚ
  timestamp : Option ℕ
  deriving DecidableEq, Repr

/-- JS `x.f > 0` where `f` may be missing: `undefined > 0` is `false`. -/
def jsGtZero : Option ℚ → Bool
  | some x => decide (0 < x)
  | none => false

/-- JS `x.f < 0` where `f` may be missing: `undefined < 0` is `false`. -/
def jsLtZero : Option ℚ → Bool
  | some x => decide (x < 0)
  | none => false

/-- JS `x.f === 0` where `f` may be missing: `undefined === 0` is `false`. -/
def jsEqZero : Option ℚ → Bool
  | some x => decide (x = 0)
  | none => false

/-- JS `(x || 0)`: a missing numeric field defaults to `0`. -/
def jsOrZero (x : Option ℚ) : ℚ := x.getD 0

/-- Total volume of a list of activity records:
`reduce((sum, a) => sum + (a.usdcSize || 0), 0)`. -/
def activityVolume (activity : List ActivityRecord) : ℚ :=
  (activity.map (fun a => jsOrZero a.usdcSize)).sum

/-! ## Metrics Calculator (`src/src/collector.js`, `calculateMetrics`) -/

/-- The derived metrics record returned by
`PolymarketCollector.calculateMetrics` (debug-only raw echoes omitted). -/
structure Metrics where
  address : String
  totalTrades : ℕ
  totalVolumeUsd : ℚ
  realizedPnl : ℚ
  strictWinRate : Option ℚ
  proxyWinRate : Option ℚ
  confidenceScore : ℚ
  winCount : ℕ
  lossCount : ℕ
  closedPositions : ℕ
  positionsCount : ℕ
  activityCount : ℕ
  winRate90d : Option ℚ
  volume90d : ℚ
  trades90d : ℕ
  realizedPnl90d : ℚ
  winCount90d : ℕ
  lossCount90d : ℕ
  closedPositions90d : ℕ
  deriving DecidableEq, Repr

/-- Embedding of `PolymarketCollector.calculateMetrics`
(`src/src/collector.js` lines 424-490).  The unused local `neutral`
count of the source is not materialised. -/
def calculateMetrics (address : String) (positions : List Position)
    (closedPositions : List ClosedPosition) (activity : List ActivityRecord) :
    Metrics :=
  -- 90-day metrics (the inputs are already window-filtered)
  let wins90d := (closedPositions.filter (fun p => jsGtZero p.realizedPnl)).length
  let losses90d := (closedPositions.filter (fun p => jsLtZero p.realizedPnl)).length
  let totalClosed90d := wins90d + losses90d
  let winRate90d : Option ℚ :=
    if totalClosed90d > 0 then some ((wins90d : ℚ) / (totalClosed90d : ℚ)) else none
  let volume90d := activityVolume activity
  let trades90d := activity.length
  let realizedPnl90d := (closedPositions.map (fun p => jsOrZero p.realizedPnl)).sum
  -- original metrics (computed from the same inputs)
  let wins := (closedPositions.filter (fun p => jsGtZero p.realizedPnl)).length
  let losses := (closedPositions.filter (fun p => jsLtZero p.realizedPnl)).length
  let totalClosed := wins + losses
  let strictWinRate : Option ℚ :=
    if totalClosed > 0 then some ((wins : ℚ) / (totalClosed : ℚ)) else none
  let confidenceScore : ℚ :=
    if positions.length > 0 then (totalClosed : ℚ) / (positions.length : ℚ) else 0
  let totalVolumeUsd := volume90d
  let totalTrades := trades90d
  let realizedPnl := (positions.map (fun p => jsOrZero p.realizedPnl)).sum
  let proxyWins := (positions.filter (fun p => jsGtZero p.cashPnl)).length
  let proxyWinRate : Option ℚ :=
    if positions.length > 0 then some ((proxyWins : ℚ) / (positions.length : ℚ)) else none
  { address := address
    totalTrades := totalTrades
    totalVolumeUsd := totalVolumeUsd
    realizedPnl := realizedPnl
    strictWinRate := strictWinRate
    proxyWinRate := proxyWinRate
    confidenceScore := confidenceScore
    winCount := wins
    lossCount := losses
    closedPositions := totalClosed
    positionsCount := positions.length
    activityCount := activity.length
    winRate90d := winRate90d
    volume90d := volume90d
    trades90d := trades90d
    realizedPnl90d := realizedPnl90d
    winCount90d := wins90d
    lossCount90d := losses90d
    closedPositions90d := totalClosed90d }

/-! Spec-side counting definitions (from §4.3 of the spec), used to compare
the calculator against the spec's wording. -/

/-- Spec: `wins = count(closedPositions where realizedPnl > 0)`. -/
def specWinCount (closedPositions : List ClosedPosition) : ℕ :=
  closedPositions.countP (fun p => jsGtZero p.realizedPnl)

/-- Spec: `losses = count(closedPositions where realizedPnl < 0)`. -/
def specLossCount (closedPositions : List ClosedPosition) : ℕ :=
  closedPositions.countP (fun p => jsLtZero p.realizedPnl)

/-! ## Selector (`src/src/selector.js`, `AccountSelector`) -/

/-- A scored account as read by the Selector (`ScoredAccount`): the select
filter reads the win-rate signals, the 90-day overrides, the aggregate
numbers and the composite score. -/
structure ScoredAccount where
  strictWinRate : Option ℚ
  proxyWinRate : Option ℚ
  winRate90d : Option ℚ
  trades90d : Option ℚ
  volume90d : Option ℚ
  realizedPnl90d : Option ℚ
  totalTrades : ℚ
  totalVolumeUsd : ℚ
  realizedPnl : ℚ
  confidenceScore : ℚ
  compositeScore : ℚ
  deriving DecidableEq, Repr

/-- The selection criteria held by `AccountSelector` (constructor
defaults below in `SelectorCriteria.default`). -/
structure SelectorCriteria where
  minTrades : ℚ
  minVolume : ℚ
  minWinRate : ℚ
  minConfidence : ℚ
  minPnl : ℚ
  topN : ℕ
  use90dMetrics : Bool
  deriving DecidableEq, Repr

/-- The constructor defaults of `AccountSelector` (`selector.js` lines
21-29). -/
def SelectorCriteria.defaults : SelectorCriteria :=
  { minTrades := 10, minVolume := 100, minWinRate := 8/10,
    minConfidence := 1/10, minPnl := 0, topN := 100, use90dMetrics := false }

/-- The effective win rate the filter tests (`selector.js` lines 40-42);
`x ?? y` on nullable values is `Option.or`. -/
def selectWinRate (c : SelectorCriteria) (a : ScoredAccount) : Option ℚ :=
  if c.use90dMetrics then (a.winRate90d.or (a.strictWinRate.or a.proxyWinRate))
  else a.strictWinRate.or a.proxyWinRate

/-- The win-rate check of the filter (`selector.js` line 57):
`winRate !== null && winRate >= this.minWinRate`. -/
def passesWinRateCheck (c : SelectorCriteria) (a : ScoredAccount) : Bool :=
  (selectWinRate c a).isSome && decide ((selectWinRate c a).getD 0 ≥ c.minWinRate)

/-- The filter predicate of `AccountSelector.select`
(`selector.js` lines 38-69).  `pnl !== undefined` is always true here
because a scored account always carries a numeric `realizedPnl`. -/
def passesFilters (c : SelectorCriteria) (a : ScoredAccount) : Bool :=
  let trades := if c.use90dMetrics then a.trades90d.getD a.totalTrades else a.totalTrades
  let volume := if c.use90dMetrics then a.volume90d.getD a.totalVolumeUsd else a.totalVolumeUsd
  let pnl := if c.use90dMetrics then a.realizedPnl90d.getD a.realizedPnl else a.realizedPnl
  let passesPnl := decide (pnl ≥ c.minPnl)
  decide (trades ≥ c.minTrades) && decide (volume ≥ c.minVolume) &&
    passesWinRateCheck c a &&
    decide (a.confidenceScore ≥ c.minConfidence) && passesPnl

/-- The comparator of `selector.js` line 72-74: JS `sort` keeps `a` before
`b` when `b.compositeScore - a.compositeScore ≤ 0`; JS `Array.prototype.sort`
is stable, modelled by the stable `List.mergeSort`. -/
def scoreDescLE (a b : ScoredAccount) : Bool :=
  decide (b.compositeScore ≤ a.compositeScore)

/-- Stable descending sort by `compositeScore`. -/
def sortByScoreDesc (l : List ScoredAccount) : List ScoredAccount :=
  l.mergeSort scoreDescLE

/-- The selection result (`selected` plus the `_stats` counters; the
summary statistics are not involved in any claim and are omitted). -/
structure SelectionResult where
  selected : List ScoredAccount
  totalInput : ℕ
  passedFilters : ℕ
  selectedCount : ℕ
  deriving DecidableEq, Repr

/-- Embedding of `AccountSelector.select` (`selector.js` lines 36-103). -/
def select (c : SelectorCriteria) (scoredAccounts : List ScoredAccount) :
    SelectionResult :=
  let filtered := scoredAccounts.filter (passesFilters c)
  let sorted := sortByScoreDesc filtered
  let topAccounts := sorted.take c.topN
  { selected := topAccounts
    totalInput := scoredAccounts.length
    passedFilters := filtered.length
    selectedCount := topAccounts.length }

/-! ## Retry Policy (`src/src/collector.js`, `RetryHandler.executeWithRetry`) -/

/-- A thrown request error: `error.response?.status` is absent on a
network-level failure. -/
structure JsError where
  status : Option ℕ
  deriving DecidableEq, Repr

/-- Source line 72 of collector.js:
`const isRetryable = !status || status === 429 || status >= 500`.
(`collector.js` line 72).  JS `!status` is also true for a (non-HTTP)
status of `0`, hence the `s = 0` disjunct. -/
def isRetryable (e : JsError) : Bool :=
  match e.status with
  | none => true
  | some s => decide (s = 0) || decide (s = 429) || decide (500 ≤ s)

/-- Observable outcome of one `executeWithRetry` run: the value or final
error, the number of times the wrapped operation was invoked, and the
sequence of backoff waits performed. -/
structure RetryResult (α : Type) where
  result : Except JsError α
  attempts : ℕ
  waits : List ℚ
  deriving Repr

/-- One run of the retry loop of `executeWithRetry` (`collector.js`
lines 61-87) from loop counter `attempt`, with `outcomes i` the result of
the `i`-th invocation of the wrapped operation.  The loop increments
`attempt` from `0`, so the source's `attempt === this.maxRetries` test is
reached exactly when `N ≤ attempt`. -/
def executeWithRetryAux {α : Type} (outcomes : ℕ → Except JsError α) (d : ℚ)
    (N attempt : ℕ) : RetryResult α :=
  match outcomes attempt with
  | .ok v => ⟨.ok v, attempt + 1, []⟩
  | .error e =>
    if h : isRetryable e = false ∨ N ≤ attempt then ⟨.error e, attempt + 1, []⟩
    else
      let rest := executeWithRetryAux outcomes d N (attempt + 1)
      ⟨rest.result, rest.attempts, d * 2 ^ attempt :: rest.waits⟩
termination_by N - attempt
decreasing_by
  simp only [not_or, Nat.not_le] at h
  omega

/-- Embedding of `RetryHandler.executeWithRetry` with max retries `N` and base delay
`d`: the loop starts at `attempt = 0`. -/
def executeWithRetry {α : Type} (outcomes : ℕ → Except JsError α) (d : ℚ)
    (N : ℕ) : RetryResult α :=
  executeWithRetryAux outcomes d N 0

/-! ## Paginated activity fetch (`src/src/collector.js`,
`PolymarketCollector._fetchAllActivity`) -/

/-- The collector options that govern the activity pagination
(`collector.js` lines 99-101). -/
structure CollectorConfig where
  maxActivityPages : ℕ
  minTradesForStop : ℕ
  minVolumeForStop : ℚ
  deriving DecidableEq, Repr

/-- Constructor defaults: `maxActivityPages || 5`,
`minTradesForStop || 200`, `minVolumeForStop || 10000`. -/
def CollectorConfig.defaults : CollectorConfig :=
  { maxActivityPages := 5, minTradesForStop := 200, minVolumeForStop := 10000 }

/-- Result of `_fetchAllActivity`, together with the number of page
requests that were issued. -/
structure FetchAllResult where
  activity : List ActivityRecord
  requests : ℕ
  deriving DecidableEq, Repr

/-- The loop of `_fetchAllActivity` (`collector.js` lines 275-319).
`pages i` is the response to the `i`-th page request (the `before` cursor
only shapes the response, which the abstract `pages` function already
captures).  `fuel = maxActivityPages - iteration` mirrors the loop guard
`iteration < this.maxActivityPages`; `requests` counts issued requests. -/
def fetchAllActivityAux (cfg : CollectorConfig) (pages : ℕ → List ActivityRecord)
    (afterTimestamp : ℕ) :
    ℕ → ℕ → List ActivityRecord → ℕ → ℚ → ℕ → FetchAllResult
  | 0, _iteration, acc, _totalTrades, _totalVolume, requests => ⟨acc, requests⟩
  | fuel + 1, iteration, acc, totalTrades, totalVolume, requests =>
    let result := pages iteration
    if result.length = 0 then ⟨acc, requests + 1⟩
    else if cfg.minTradesForStop ≤ totalTrades + result.length then
      ⟨acc ++ result, requests + 1⟩
    else if cfg.minVolumeForStop ≤ totalVolume + activityVolume result then
      ⟨acc ++ result, requests + 1⟩
    else
      -- timestamps kept by JS truthiness: present and non-zero
      let timestamps := (result.filterMap (fun a => a.timestamp)).filter
        (fun t => decide (t ≠ 0))
      if timestamps.length = 0 then ⟨acc ++ result, requests + 1⟩
      else if (timestamps.min?).getD 0 ≤ afterTimestamp then
        ⟨acc ++ result, requests + 1⟩
      else
        fetchAllActivityAux cfg pages afterTimestamp fuel (iteration + 1)
          (acc ++ result) (totalTrades + result.length)
          (totalVolume + activityVolume result) (requests + 1)

/-- Final window filter of `_fetchAllActivity` (`collector.js` line 322):
keep records whose timestamp is falsy or at least the window start. -/
def inWindow (afterTimestamp : ℕ) (a : ActivityRecord) : Bool :=
  match a.timestamp with
  | none => true
  | some t => decide (t = 0) || decide (afterTimestamp ≤ t)

/-- Embedding of `_fetchAllActivity` for one address: run the loop from `iteration = 0`
and apply the final window filter. -/
def fetchAllActivity (cfg : CollectorConfig) (pages : ℕ → List ActivityRecord)
    (afterTimestamp : ℕ) : FetchAllResult :=
  let r := fetchAllActivityAux cfg pages afterTimestamp cfg.maxActivityPages
    0 [] 0 0 0
  ⟨r.activity.filter (inWindow afterTimestamp), r.requests⟩

/-! ## Two-phase collection (`src/src/runner.js` lines 209-257)

`collector.fetchBasic90dMetrics` and `collector.enrichWithActivity` are
not part of the sources (only their caller is), so the two fetches are
abstracted as oracle functions; the runner's own control flow — the
phase-1 error handling, the phase-1 threshold filter, the phase-2 loop
with its fallback to phase-1 metrics — is embedded from `runner.js`. -/

/-- The metrics fields the runner itself reads or writes
(`closedPositionsCount` stands for the source's `_closedPositionsCount`). -/
structure RunnerMetrics where
  strictWinRate : Option ℚ
  realizedPnl : ℚ
  totalTrades : ℚ
  closedPositionsCount : ℚ
  confidenceScore : ℚ
  deriving DecidableEq, Repr

/-- A collected per-address error entry (`{address, type, message}`). -/
structure ErrorEntry where
  address : String
  type : String
  message : String
  deriving DecidableEq, Repr

/-- A phase-1 result entry (`{ address, metrics }`). -/
structure Phase1Item where
  address : String
  metrics : RunnerMetrics
  deriving DecidableEq, Repr

/-- Phase 1 loop (`runner.js` lines 213-220): collect
`{address, metrics}` per address, or a `phase1_failure` error entry. -/
def runnerPhase1 (phase1 : String → Except String RunnerMetrics) :
    List String → List Phase1Item × List ErrorEntry
  | [] => ([], [])
  | a :: rest =>
    let r := runnerPhase1 phase1 rest
    match phase1 a with
    | .ok m => (⟨a, m⟩ :: r.1, r.2)
    | .error msg => (r.1, ⟨a, "phase1_failure", msg⟩ :: r.2)

/-- Phase 1 filter (`runner.js` lines 223-229):
`(m.strictWinRate ?? 0) >= minWinRate && m.realizedPnl >= minPnl`. -/
def phase1Passes (minWinRate minPnl : ℚ) (m : RunnerMetrics) : Bool :=
  decide (m.strictWinRate.getD 0 ≥ minWinRate) && decide (m.realizedPnl ≥ minPnl)

/-- The runner's confidence-score rewrite on enriched metrics
(`runner.js` lines 244-246). -/
def applyConfidence (m : RunnerMetrics) : RunnerMetrics :=
  { m with confidenceScore :=
      if 0 < m.closedPositionsCount then m.totalTrades / m.closedPositionsCount
      else 0 }

/-- Phase 2 loop (`runner.js` lines 236-255): enrich each phase-1 pass;
on failure fall back to the phase-1 metrics and record a
`phase2_failure` error entry. -/
def runnerPhase2 (phase2 : String → RunnerMetrics → Except String RunnerMetrics) :
    List Phase1Item → List RunnerMetrics × List ErrorEntry
  | [] => ([], [])
  | item :: rest =>
    let r := runnerPhase2 phase2 rest
    match phase2 item.address item.metrics with
    | .ok m => (applyConfidence m :: r.1, r.2)
    | .error msg =>
      (item.metrics :: r.1, ⟨item.address, "phase2_failure", msg⟩ :: r.2)

/-- Outcome of the two-phase collection: the metrics set handed to the
Scorer, the collected error entries, and the addresses for which a
phase-2 fetch was issued. -/
structure TwoPhaseResult where
  metricsResults : List RunnerMetrics
  errors : List ErrorEntry
  phase2Calls : List String
  deriving DecidableEq, Repr

/-- The two-phase collection of `runner.js` `main`, steps 4a-4b. -/
def runnerTwoPhase (addresses : List String)
    (phase1 : String → Except String RunnerMetrics)
    (phase2 : String → RunnerMetrics → Except String RunnerMetrics)
    (minWinRate minPnl : ℚ) : TwoPhaseResult :=
  let p1 := runnerPhase1 phase1 addresses
  let passList := p1.1.filter (fun r => phase1Passes minWinRate minPnl r.metrics)
  let p2 := runnerPhase2 phase2 passList
  { metricsResults := p2.1
    errors := p1.2 ++ p2.2
    phase2Calls := passList.map (fun r => r.address) }

/-! ## Scorer (`AccountScorer`, both variants: the 90d-aware variant and
the original variant, concatenated in `src/db/migrations/001_init.sql`) -/

/-- The scorer weights (`?? 0.5 / 0.3 / 0.2` constructor defaults). -/
structure ScorerWeights where
  winRateWeight : ℝ
  volumeWeight : ℝ
  confidenceWeight : ℝ

/-- Constructor defaults of `AccountScorer`. -/
noncomputable def ScorerWeights.defaults : ScorerWeights :=
  { winRateWeight := 0.5, volumeWeight := 0.3, confidenceWeight := 0.2 }

/-- A metrics record as destructured by `AccountScorer.score`; every
field can be absent. -/
structure ScorerInput where
  winRate90d : Option ℝ := none
  strictWinRate : Option ℝ := none
  proxyWinRate : Option ℝ := none
  volume90d : Option ℝ := none
  totalVolumeUsd : Option ℝ := none
  trades90d : Option ℝ := none
  totalTrades : Option ℝ := none
  realizedPnl90d : Option ℝ := none
  realizedPnl : Option ℝ := none
  winCount90d : Option ℝ := none
  winCount : Option ℝ := none
  lossCount90d : Option ℝ := none
  lossCount : Option ℝ := none
  closedPositions90d : Option ℝ := none
  closedPositions : Option ℝ := none
  confidenceScore : Option ℝ := none

/-- Embedding of `AccountScorer.normalizeVolume`: `0` on a falsy or non-positive
volume, else `min(log10(volume + 1) / log10(1000001), 1)`. -/
noncomputable def normalizeVolume (volume : ℝ) : ℝ :=
  if volume ≤ 0 then 0
  else min (Real.logb 10 (volume + 1) / Real.logb 10 1000001) 1

/-- JS `Math.round(x * 10000) / 10000` (round half toward `+∞`, which is
Lean's `round`). -/
noncomputable def jsRound4 (x : ℝ) : ℝ := ((round (x * 10000) : ℤ) : ℝ) / 10000

/-- Output fields of the 90d scorer variant that the claims read. -/
structure Scored90d where
  winRate90d : Option ℝ
  strictWinRate : Option ℝ
  proxyWinRate : Option ℝ
  compositeScore : ℝ
  winRateContribution : ℝ
  volumeContribution : ℝ
  confidenceContribution : ℝ

/-- The 90d variant of `AccountScorer.score`:
`effectiveWinRate = winRate90d ?? strictWinRate ?? proxyWinRate ?? 0`
(the source's extra `?? 0` inside the composite formula is a no-op on the
already-defaulted value). -/
noncomputable def score90d (w : ScorerWeights) (m : ScorerInput) : Scored90d :=
  let effectiveWinRate := (m.winRate90d.or (m.strictWinRate.or m.proxyWinRate)).getD 0
  let effectiveVolume := (m.volume90d.or m.totalVolumeUsd).getD 0
  let normalizedVolume := normalizeVolume effectiveVolume
  let compositeScore :=
    w.winRateWeight * effectiveWinRate +
    w.volumeWeight * normalizedVolume +
    w.confidenceWeight * (m.confidenceScore.getD 0)
  { winRate90d := m.winRate90d
    strictWinRate := m.strictWinRate
    proxyWinRate := m.proxyWinRate
    compositeScore := jsRound4 compositeScore
    winRateContribution := effectiveWinRate * w.winRateWeight
    volumeContribution := normalizedVolume * w.volumeWeight
    confidenceContribution := m.confidenceScore.getD 0 * w.confidenceWeight }

/-- Output fields of the original scorer variant that the claims read. -/
structure ScoredOrig where
  strictWinRate : Option ℝ
  proxyWinRate : Option ℝ
  compositeScore : ℝ
  winRateContribution : ℝ
  volumeContribution : ℝ
  confidenceContribution : ℝ

/-- The original variant of `AccountScorer.score`:
`effectiveWinRate = strictWinRate ?? proxyWinRate ?? 0`; a missing
`totalVolumeUsd` reaches `normalizeVolume` as a falsy value, which is the
zero branch, i.e. `normalizeVolume (totalVolumeUsd ?? 0)`. -/
noncomputable def scoreOrig (w : ScorerWeights) (m : ScorerInput) : ScoredOrig :=
  let effectiveWinRate := (m.strictWinRate.or m.proxyWinRate).getD 0
  let normalizedVolume := normalizeVolume (m.totalVolumeUsd.getD 0)
  let compositeScore :=
    w.winRateWeight * effectiveWinRate +
    w.volumeWeight * normalizedVolume +
    w.confidenceWeight * (m.confidenceScore.getD 0)
  { strictWinRate := m.strictWinRate
    proxyWinRate := m.proxyWinRate
    compositeScore := jsRound4 compositeScore
    winRateContribution := effectiveWinRate * w.winRateWeight
    volumeContribution := normalizedVolume * w.volumeWeight
    confidenceContribution := m.confidenceScore.getD 0 * w.confidenceWeight }

/-- Modelled from the spec wording (§4.5):
`effectiveWinRate = strictWinRate ?? proxyWinRate ?? 0`
(first non-null wins, no other field involved). -/
def specEffectiveWinRate (m : ScorerInput) : ℝ :=
  (m.strictWinRate.or m.proxyWinRate).getD 0

/-! ## Theorems -/

/-- The calculator's `strictWinRate`, written with the spec's win/loss
counts. -/
theorem strictWinRate_eq (address : String) (positions : List Position)
    (closedPositions : List ClosedPosition) (activity : List ActivityRecord) :
    (calculateMetrics address positions closedPositions activity).strictWinRate =
      (if 0 < specWinCount closedPositions + specLossCount closedPositions then
        some ((specWinCount closedPositions : ℚ) /
          ((specWinCount closedPositions + specLossCount closedPositions : ℕ) : ℚ))
      else none) := by
  rw [specWinCount, specLossCount, List.countP_eq_length_filter,
    List.countP_eq_length_filter]
  rfl

/-- C2: For every list of closed-position records, `strictWinRate` equals
`wins / (wins + losses)` where `wins` counts records with `realizedPnl > 0`
and `losses` those with `realizedPnl < 0` (neutral `realizedPnl == 0`
records counting toward neither), and `strictWinRate` is `null` if and
only if `wins + losses == 0`. -/
theorem calculateMetrics_strictWinRate (address : String)
    (positions : List Position) (closedPositions : List ClosedPosition)
    (activity : List ActivityRecord) :
    (calculateMetrics address positions closedPositions activity).strictWinRate =
      (if 0 < specWinCount closedPositions + specLossCount closedPositions then
        some ((specWinCount closedPositions : ℚ) /
          ((specWinCount closedPositions + specLossCount closedPositions : ℕ) : ℚ))
      else none)
    ∧ ((calculateMetrics address positions closedPositions activity).strictWinRate = none
        ↔ specWinCount closedPositions + specLossCount closedPositions = 0) := by
  refine ⟨strictWinRate_eq address positions closedPositions activity, ?_⟩
  rw [strictWinRate_eq address positions closedPositions activity]
  split
  · rename_i h
    simp only [reduceCtorEq, false_iff]
    omega
  · rename_i h
    simp only [true_iff]
    omega

/-- Concrete instance for C2 (spec §8): 6 wins, 3 losses, 1 neutral give
`strictWinRate = 6/9`. -/
example :
    (calculateMetrics "0xabc" []
      [⟨some 1⟩, ⟨some 2⟩, ⟨some 3⟩, ⟨some 4⟩, ⟨some 5⟩, ⟨some 6⟩,
       ⟨some (-1)⟩, ⟨some (-2)⟩, ⟨some (-3)⟩, ⟨some 0⟩]
      []).strictWinRate = some (6 / 9 : ℚ) := by
  rw [strictWinRate_eq]
  norm_num [specWinCount, specLossCount, jsGtZero, jsLtZero]

/-- C9: The calculator's `realizedPnl` field is the sum of the
open-position records' `realizedPnl` components (missing values default
to `0`), not a sum over the closed-position records: at the concrete
input below the open-position sum is `5` and the closed-position sum is
`7`, and `realizedPnl` is `5`. -/
theorem calculateMetrics_realizedPnl_from_positions :
    (∀ (address : String) (positions : List Position)
      (closedPositions : List ClosedPosition) (activity : List ActivityRecord),
      (calculateMetrics address positions closedPositions activity).realizedPnl =
        (positions.map (fun p => jsOrZero p.realizedPnl)).sum)
    ∧ (calculateMetrics "0xabc" [⟨some 1, some 5⟩, ⟨some 0, none⟩] [⟨some 7⟩]
        []).realizedPnl = 5
    ∧ (([⟨some 7⟩] : List ClosedPosition).map
        (fun p => jsOrZero p.realizedPnl)).sum = 7 := by
  refine ⟨fun address positions closedPositions activity => rfl, ?_, ?_⟩
  · show (([⟨some 1, some 5⟩, ⟨some 0, none⟩] : List Position).map
      (fun p => jsOrZero p.realizedPnl)).sum = 5
    simp [jsOrZero]
  · simp [jsOrZero]

/-- C10: For every input, the metrics record satisfies
`winCount + lossCount = closedPositions` exactly: the `closedPositions`
field is defined as wins + losses, so zero-PnL records are excluded from
it as well and the relation is an equality, not merely `≤`. -/
theorem calculateMetrics_winCount_add_lossCount (address : String)
    (positions : List Position) (closedPositions : List ClosedPosition)
    (activity : List ActivityRecord) :
    (calculateMetrics address positions closedPositions activity).winCount +
        (calculateMetrics address positions closedPositions activity).lossCount =
      (calculateMetrics address positions closedPositions activity).closedPositions
    ∧ (calculateMetrics address positions closedPositions activity).closedPositions =
        specWinCount closedPositions + specLossCount closedPositions := by
  constructor
  · rfl
  · simp [calculateMetrics, specWinCount, specLossCount, List.countP_eq_length_filter]

/-- C3: With the selector in its spec mode (`use90dMetrics = false`,
the runner's configuration): an account whose `strictWinRate` and
`proxyWinRate` are both null fails the filter and is excluded from the
filtered set and from the selection for every value of `minWinRate`
(including `minWinRate = 0`); an account with a non-null effective win
rate `strictWinRate ?? proxyWinRate` passes the win-rate check exactly
when that value is at least `minWinRate`. -/
theorem select_rejects_null_winrate (c : SelectorCriteria)
    (accounts : List ScoredAccount) (a : ScoredAccount)
    (h90 : c.use90dMetrics = false) :
    (a.strictWinRate = none → a.proxyWinRate = none →
      passesFilters c a = false ∧
      a ∉ accounts.filter (passesFilters c) ∧
      a ∉ (select c accounts).selected)
    ∧ (∀ w : ℚ, a.strictWinRate.or a.proxyWinRate = some w →
        (passesWinRateCheck c a = true ↔ c.minWinRate ≤ w)) := by
  constructor
  · intro hs hp
    have hwr : selectWinRate c a = none := by
      simp [selectWinRate, h90, hs, hp]
    have hfail : passesFilters c a = false := by
      simp [passesFilters, passesWinRateCheck, hwr]
    refine ⟨hfail, ?_, ?_⟩
    · intro hmem
      exact absurd (List.of_mem_filter hmem) (by simp [hfail])
    · intro hmem
      have h1 : a ∈ sortByScoreDesc (accounts.filter (passesFilters c)) :=
        (List.take_sublist _ _).mem hmem
      have h2 : a ∈ accounts.filter (passesFilters c) := by
        simpa [sortByScoreDesc] using h1
      exact absurd (List.of_mem_filter h2) (by simp [hfail])
  · intro w hw
    have hwr : selectWinRate c a = some w := by
      simp [selectWinRate, h90, hw]
    simp [passesWinRateCheck, hwr]

/-- C4: the select operation returns the survivors of its filter sorted by
`compositeScore` descending (a stable order: two survivors with equal
score keep their relative order), truncated to at most `topN` entries:
the selected list is the `topN`-prefix of the stable descending sort of
the filtered list, its length never exceeds `topN`, it is sorted
descending, the sort is a permutation of the filtered list, and any two
filtered accounts with equal score that appear in a given order reappear
in that order after sorting. -/
theorem select_ranking (c : SelectorCriteria) (accounts : List ScoredAccount) :
    ((select c accounts).selected).length ≤ c.topN
    ∧ (select c accounts).selected =
        (sortByScoreDesc (accounts.filter (passesFilters c))).take c.topN
    ∧ List.Pairwise (fun x y => y.compositeScore ≤ x.compositeScore)
        (select c accounts).selected
    ∧ (sortByScoreDesc (accounts.filter (passesFilters c))).Perm
        (accounts.filter (passesFilters c))
    ∧ (∀ x y : ScoredAccount, x.compositeScore = y.compositeScore →
        List.Sublist [x, y] (accounts.filter (passesFilters c)) →
        List.Sublist [x, y] (sortByScoreDesc (accounts.filter (passesFilters c)))) := by
  have trans : ∀ x y z : ScoredAccount,
      scoreDescLE x y → scoreDescLE y z → scoreDescLE x z := by
    intro x y z hxy hyz
    simp only [scoreDescLE, decide_eq_true_eq] at *
    exact le_trans hyz hxy
  have total : ∀ x y : ScoredAccount, scoreDescLE x y || scoreDescLE y x := by
    intro x y
    simp only [scoreDescLE, Bool.or_eq_true, decide_eq_true_eq]
    exact le_total y.compositeScore x.compositeScore
  refine ⟨?_, rfl, ?_, List.mergeSort_perm _ _, ?_⟩
  · exact List.length_take_le _ _
  · have hs := List.sorted_mergeSort trans total (accounts.filter (passesFilters c))
    have hs' : List.Pairwise (fun x y => y.compositeScore ≤ x.compositeScore)
        (sortByScoreDesc (accounts.filter (passesFilters c))) := by
      refine hs.imp ?_
      intro x y h
      simpa [scoreDescLE] using h
    exact hs'.sublist (List.take_sublist _ _)
  · intro x y hscore hsub
    refine List.pair_sublist_mergeSort trans total ?_ hsub
    simp [scoreDescLE, hscore.le, hscore.ge]

/-- Witness for `select_rejects_null_winrate`: a concrete signal-free
account is rejected at `minWinRate = 0`, and a concrete account with
`strictWinRate = 3/4` passes the win-rate check at `minWinRate = 0`. -/
theorem select_rejects_null_winrate_witness :
    passesFilters ⟨0, 0, 0, 0, 0, 10, false⟩
        ⟨none, none, none, none, none, none, 100, 1000, 50, 1, 1⟩ = false
    ∧ (⟨none, none, none, none, none, none, 100, 1000, 50, 1, 1⟩ : ScoredAccount) ∉
        (select ⟨0, 0, 0, 0, 0, 10, false⟩
          [⟨none, none, none, none, none, none, 100, 1000, 50, 1, 1⟩]).selected
    ∧ (passesWinRateCheck ⟨0, 0, 0, 0, 0, 10, false⟩
        ⟨some (3/4), none, none, none, none, none, 100, 1000, 50, 1, 1⟩ = true
        ↔ (0 : ℚ) ≤ 3/4) := by
  have h := select_rejects_null_winrate ⟨0, 0, 0, 0, 0, 10, false⟩
    [⟨none, none, none, none, none, none, 100, 1000, 50, 1, 1⟩]
    ⟨none, none, none, none, none, none, 100, 1000, 50, 1, 1⟩ rfl
  have h' := select_rejects_null_winrate ⟨0, 0, 0, 0, 0, 10, false⟩ []
    ⟨some (3/4), none, none, none, none, none, 100, 1000, 50, 1, 1⟩ rfl
  obtain ⟨h1, _h2, h3⟩ := h.1 rfl rfl
  exact ⟨h1, h3, h'.2 (3/4) rfl⟩

/-- Witness for `select_ranking`: two concrete equal-score survivors keep
their relative order through the stable sort. -/
theorem select_ranking_witness :
    List.Sublist
      [(⟨some 1, none, none, none, none, none, 0, 0, 0, 0, 1⟩ : ScoredAccount),
       ⟨some 1, none, none, none, none, none, 5, 0, 0, 0, 1⟩]
      (sortByScoreDesc (List.filter (passesFilters ⟨0, 0, 0, 0, 0, 2, false⟩)
        [⟨some 1, none, none, none, none, none, 0, 0, 0, 0, 1⟩,
         ⟨some 1, none, none, none, none, none, 5, 0, 0, 0, 1⟩])) := by
  have hfilt : List.filter (passesFilters ⟨0, 0, 0, 0, 0, 2, false⟩)
      [(⟨some 1, none, none, none, none, none, 0, 0, 0, 0, 1⟩ : ScoredAccount),
       ⟨some 1, none, none, none, none, none, 5, 0, 0, 0, 1⟩] =
      [⟨some 1, none, none, none, none, none, 0, 0, 0, 0, 1⟩,
       ⟨some 1, none, none, none, none, none, 5, 0, 0, 0, 1⟩] := by
    simp [passesFilters, passesWinRateCheck, selectWinRate]
  exact (select_ranking ⟨0, 0, 0, 0, 0, 2, false⟩
      [⟨some 1, none, none, none, none, none, 0, 0, 0, 0, 1⟩,
       ⟨some 1, none, none, none, none, none, 5, 0, 0, 0, 1⟩]).2.2.2.2
    _ _ rfl (by rw [hfilt])

theorem executeWithRetryAux_ok {α : Type} (outcomes : ℕ → Except JsError α)
    (d : ℚ) (N attempt : ℕ) (v : α) (h : outcomes attempt = .ok v) :
    executeWithRetryAux outcomes d N attempt = ⟨.ok v, attempt + 1, []⟩ := by
  unfold executeWithRetryAux
  rw [h]

theorem executeWithRetryAux_stop {α : Type} (outcomes : ℕ → Except JsError α)
    (d : ℚ) (N attempt : ℕ) (e : JsError) (h : outcomes attempt = .error e)
    (hstop : isRetryable e = false ∨ N ≤ attempt) :
    executeWithRetryAux outcomes d N attempt = ⟨.error e, attempt + 1, []⟩ := by
  unfold executeWithRetryAux
  rw [h]
  simp [hstop]

theorem executeWithRetryAux_retry {α : Type} (outcomes : ℕ → Except JsError α)
    (d : ℚ) (N attempt : ℕ) (e : JsError) (h : outcomes attempt = .error e)
    (hret : isRetryable e = true) (hlt : attempt < N) :
    executeWithRetryAux outcomes d N attempt =
      ⟨(executeWithRetryAux outcomes d N (attempt + 1)).result,
       (executeWithRetryAux outcomes d N (attempt + 1)).attempts,
       d * 2 ^ attempt :: (executeWithRetryAux outcomes d N (attempt + 1)).waits⟩ := by
  have hno : ¬ (isRetryable e = false ∨ N ≤ attempt) := by
    simp only [hret, not_or]
    exact ⟨by simp, by omega⟩
  conv_lhs => rw [executeWithRetryAux]
  rw [h]
  simp [hno]

/-- The backoff wait of the head attempt followed by the shifted tail
waits is the full exponential wait sequence. -/
theorem waits_shift (d : ℚ) (attempt j : ℕ) :
    d * 2 ^ attempt :: (List.range j).map (fun i => d * 2 ^ (attempt + 1 + i)) =
      (List.range (j + 1)).map (fun i => d * 2 ^ (attempt + i)) := by
  have h2 : (List.range j).map ((fun i => d * 2 ^ (attempt + i)) ∘ Nat.succ) =
      (List.range j).map (fun i => d * 2 ^ (attempt + 1 + i)) := by
    refine List.map_congr_left ?_
    intro a _
    simp only [Function.comp_apply]
    have ha : attempt + Nat.succ a = attempt + 1 + a := by omega
    rw [ha]
  rw [List.range_succ_eq_map, List.map_cons, List.map_map, h2]
  norm_num

/-- Running through `j` initial retryable failures accumulates the
exponential waits and continues at loop counter `attempt + j`. -/
theorem executeWithRetryAux_runs_through {α : Type}
    (outcomes : ℕ → Except JsError α) (d : ℚ) (N : ℕ) :
    ∀ (j attempt : ℕ), attempt + j ≤ N →
    (∀ i, attempt ≤ i → i < attempt + j →
      ∃ e, outcomes i = .error e ∧ isRetryable e = true) →
    executeWithRetryAux outcomes d N attempt =
      ⟨(executeWithRetryAux outcomes d N (attempt + j)).result,
       (executeWithRetryAux outcomes d N (attempt + j)).attempts,
       ((List.range j).map (fun i => d * 2 ^ (attempt + i))) ++
         (executeWithRetryAux outcomes d N (attempt + j)).waits⟩ := by
  intro j
  induction j with
  | zero => intro attempt _ _; simp
  | succ j ih =>
    intro attempt hle hfail
    obtain ⟨e, he, hret⟩ := hfail attempt (le_refl _) (by omega)
    rw [executeWithRetryAux_retry outcomes d N attempt e he hret (by omega)]
    rw [ih (attempt + 1) (by omega)
      (fun i hi hi' => hfail i (by omega) (by omega))]
    rw [show attempt + 1 + j = attempt + (j + 1) by omega]
    rw [← List.cons_append, waits_shift]

/-- The loop makes at most `N + 1 - attempt` further invocations. -/
theorem executeWithRetryAux_attempts_le {α : Type}
    (outcomes : ℕ → Except JsError α) (d : ℚ) (N : ℕ) :
    ∀ (k attempt : ℕ), N ≤ attempt + k →
    (executeWithRetryAux outcomes d N attempt).attempts ≤ N + 1 ∨
      (executeWithRetryAux outcomes d N attempt).attempts = attempt + 1 := by
  intro k
  induction k with
  | zero =>
    intro attempt hk
    cases houtcome : outcomes attempt with
    | ok v => right; rw [executeWithRetryAux_ok outcomes d N attempt v houtcome]
    | error e =>
      right
      rw [executeWithRetryAux_stop outcomes d N attempt e houtcome (Or.inr (by omega))]
  | succ k ih =>
    intro attempt hk
    cases houtcome : outcomes attempt with
    | ok v => right; rw [executeWithRetryAux_ok outcomes d N attempt v houtcome]
    | error e =>
      by_cases hstop : isRetryable e = false ∨ N ≤ attempt
      · right; rw [executeWithRetryAux_stop outcomes d N attempt e houtcome hstop]
      · push_neg at hstop
        obtain ⟨hret, hlt⟩ := hstop
        rw [executeWithRetryAux_retry outcomes d N attempt e
          (by exact houtcome) (by simpa using hret) (by omega)]
        rcases ih (attempt + 1) (by omega) with h | h
        · left; exact h
        · left
          simp only [h]
          omega

/-- C5: executeWithRetry invokes the operation at most `N + 1` times;
a failure whose status is a 4xx other than 429 propagates immediately with
no further attempt and no wait; retryable failures (no status, 429, or
`≥ 500`) before the last attempt wait `d * 2^attempt` and retry; after the
last attempt the final error propagates; and the retryability
classification is exactly `no status`, `0`, `429`, or `≥ 500`. -/
theorem executeWithRetry_spec {α : Type} (outcomes : ℕ → Except JsError α)
    (d : ℚ) (N : ℕ) :
    (executeWithRetry outcomes d N).attempts ≤ N + 1
    ∧ (∀ j e s, j ≤ N →
        (∀ i, i < j → ∃ e', outcomes i = .error e' ∧ isRetryable e' = true) →
        outcomes j = .error e → e.status = some s → 400 ≤ s → s < 500 → s ≠ 429 →
        executeWithRetry outcomes d N =
          ⟨.error e, j + 1, (List.range j).map (fun i => d * 2 ^ i)⟩)
    ∧ (∀ j v, j ≤ N →
        (∀ i, i < j → ∃ e', outcomes i = .error e' ∧ isRetryable e' = true) →
        outcomes j = .ok v →
        executeWithRetry outcomes d N =
          ⟨.ok v, j + 1, (List.range j).map (fun i => d * 2 ^ i)⟩)
    ∧ (∀ e, (∀ i, i < N → ∃ e', outcomes i = .error e' ∧ isRetryable e' = true) →
        outcomes N = .error e →
        executeWithRetry outcomes d N =
          ⟨.error e, N + 1, (List.range N).map (fun i => d * 2 ^ i)⟩)
    ∧ (∀ s, isRetryable ⟨some s⟩ = true ↔ (s = 0 ∨ s = 429 ∨ 500 ≤ s))
    ∧ isRetryable ⟨none⟩ = true := by
  refine ⟨?_, ?_, ?_, ?_, ?_, rfl⟩
  · rcases executeWithRetryAux_attempts_le outcomes d N N 0 (by omega) with h | h
    · exact h
    · show (executeWithRetryAux outcomes d N 0).attempts ≤ N + 1
      omega
  · intro j e s hj hfail hout hstatus h400 h500 h429
    have hretf : isRetryable e = false := by
      simp only [isRetryable, hstatus, Bool.or_eq_false_iff,
        decide_eq_false_iff_not]
      exact ⟨⟨by omega, by omega⟩, by omega⟩
    show executeWithRetryAux outcomes d N 0 = _
    rw [executeWithRetryAux_runs_through outcomes d N j 0 (by omega)
      (fun i _ hi => hfail i (by omega))]
    rw [show 0 + j = j by omega]
    rw [executeWithRetryAux_stop outcomes d N j e hout (Or.inl hretf)]
    simp
  · intro j v hj hfail hout
    show executeWithRetryAux outcomes d N 0 = _
    rw [executeWithRetryAux_runs_through outcomes d N j 0 (by omega)
      (fun i _ hi => hfail i (by omega))]
    rw [show 0 + j = j by omega]
    rw [executeWithRetryAux_ok outcomes d N j v hout]
    simp
  · intro e hfail hout
    show executeWithRetryAux outcomes d N 0 = _
    rw [executeWithRetryAux_runs_through outcomes d N N 0 (by omega)
      (fun i _ hi => hfail i (by omega))]
    rw [show 0 + N = N by omega]
    rw [executeWithRetryAux_stop outcomes d N N e hout (Or.inr (le_refl N))]
    simp
  · intro s
    simp only [isRetryable, Bool.or_eq_true, decide_eq_true_eq]
    tauto

/-- Witness for `executeWithRetry_spec`: failures `503, 503` then success
complete on the third attempt with waits `d` and `2d` (`d = 1000`), and a
single `404` aborts with one invocation and no wait. -/
theorem executeWithRetry_spec_witness :
    executeWithRetry
        (fun i => if i = 0 then (Except.error ⟨some 503⟩ : Except JsError ℕ)
          else if i = 1 then .error ⟨some 503⟩ else .ok 42) 1000 5 =
      ⟨.ok 42, 3, [1000, 2000]⟩
    ∧ executeWithRetry (fun _ => (Except.error ⟨some 404⟩ : Except JsError ℕ))
        1000 5 =
      ⟨.error ⟨some 404⟩, 1, []⟩ := by
  constructor
  · have h := (executeWithRetry_spec
      (fun i => if i = 0 then (Except.error ⟨some 503⟩ : Except JsError ℕ)
        else if i = 1 then .error ⟨some 503⟩ else .ok 42) 1000 5).2.2.1 2 42
      (by omega) ?_ rfl
    · rw [h]
      norm_num [List.range_succ]
    · intro i hi
      match i, hi with
      | 0, _ => exact ⟨⟨some 503⟩, rfl, rfl⟩
      | 1, _ => exact ⟨⟨some 503⟩, rfl, rfl⟩
  · have h := (executeWithRetry_spec
      (fun _ => (Except.error ⟨some 404⟩ : Except JsError ℕ)) 1000 5).2.1 0
      ⟨some 404⟩ 404 (by omega) (fun i hi => absurd hi (by omega)) rfl rfl
      (by omega) (by omega) (by omega)
    rw [h]
    simp

/-- The pagination loop issues at most `fuel` further requests. -/
theorem fetchAllActivityAux_requests_le (cfg : CollectorConfig)
    (pages : ℕ → List ActivityRecord) (afterTimestamp : ℕ) :
    ∀ (fuel iteration : ℕ) (acc : List ActivityRecord) (tt : ℕ) (tv : ℚ)
      (req : ℕ),
    (fetchAllActivityAux cfg pages afterTimestamp fuel iteration acc tt tv
      req).requests ≤ req + fuel := by
  intro fuel
  induction fuel with
  | zero =>
    intro it acc tt tv req
    simp [fetchAllActivityAux]
  | succ fuel ih =>
    intro it acc tt tv req
    simp only [fetchAllActivityAux]
    split
    · simp only []
      omega
    · split
      · simp only []
        omega
      · split
        · simp only []
          omega
        · split
          · simp only []
            omega
          · split
            · simp only []
              omega
            · exact le_trans (ih (it + 1) _ _ _ (req + 1)) (by omega)

/-- Once the trade count accumulated through page `j` reaches
`minTradesForStop`, the loop stops within `j + 1 - iteration` further
requests. -/
theorem fetchAllActivityAux_stop_trades (cfg : CollectorConfig)
    (pages : ℕ → List ActivityRecord) (afterTimestamp : ℕ) :
    ∀ (fuel iteration : ℕ) (acc : List ActivityRecord) (tt : ℕ) (tv : ℚ)
      (req j : ℕ), iteration ≤ j →
    cfg.minTradesForStop ≤ tt + ∑ i ∈ Finset.Ico iteration (j + 1), (pages i).length →
    (fetchAllActivityAux cfg pages afterTimestamp fuel iteration acc tt tv
      req).requests ≤ req + (j + 1 - iteration) := by
  intro fuel
  induction fuel with
  | zero =>
    intro it acc tt tv req j hij hsum
    simp only [fetchAllActivityAux]
    omega
  | succ fuel ih =>
    intro it acc tt tv req j hij hsum
    have hstep : ∑ i ∈ Finset.Ico it (j + 1), (pages i).length =
        (pages it).length + ∑ i ∈ Finset.Ico (it + 1) (j + 1), (pages i).length :=
      Finset.sum_eq_sum_Ico_succ_bot (by omega) _
    simp only [fetchAllActivityAux]
    split
    · simp only []
      omega
    · split
      · simp only []
        omega
      · rename_i hlen htr
        split
        · simp only []
          omega
        · split
          · simp only []
            omega
          · split
            · simp only []
              omega
            · have hit : it < j := by
                rcases Nat.lt_or_ge it j with h | h
                · exact h
                · exfalso
                  have hij' : it = j := by omega
                  subst hij'
                  rw [hstep] at hsum
                  simp [Finset.Ico_self] at hsum
                  omega
              refine le_trans (ih (it + 1) _ _ _ (req + 1) j (by omega) ?_) (by omega)
              rw [hstep] at hsum
              omega

/-- Once the volume accumulated through page `j` reaches
`minVolumeForStop`, the loop stops within `j + 1 - iteration` further
requests. -/
theorem fetchAllActivityAux_stop_volume (cfg : CollectorConfig)
    (pages : ℕ → List ActivityRecord) (afterTimestamp : ℕ) :
    ∀ (fuel iteration : ℕ) (acc : List ActivityRecord) (tt : ℕ) (tv : ℚ)
      (req j : ℕ), iteration ≤ j →
    cfg.minVolumeForStop ≤ tv + ∑ i ∈ Finset.Ico iteration (j + 1), activityVolume (pages i) →
    (fetchAllActivityAux cfg pages afterTimestamp fuel iteration acc tt tv
      req).requests ≤ req + (j + 1 - iteration) := by
  intro fuel
  induction fuel with
  | zero =>
    intro it acc tt tv req j hij hsum
    simp only [fetchAllActivityAux]
    omega
  | succ fuel ih =>
    intro it acc tt tv req j hij hsum
    have hstep : ∑ i ∈ Finset.Ico it (j + 1), activityVolume (pages i) =
        activityVolume (pages it) +
          ∑ i ∈ Finset.Ico (it + 1) (j + 1), activityVolume (pages i) :=
      Finset.sum_eq_sum_Ico_succ_bot (by omega) _
    simp only [fetchAllActivityAux]
    split
    · simp only []
      omega
    · split
      · simp only []
        omega
      · split
        · simp only []
          omega
        · rename_i hlen htr hvol
          split
          · simp only []
            omega
          · split
            · simp only []
              omega
            · have hit : it < j := by
                rcases Nat.lt_or_ge it j with h | h
                · exact h
                · exfalso
                  have hij' : it = j := by omega
                  subst hij'
                  rw [hstep] at hsum
                  simp [Finset.Ico_self] at hsum
                  exact hvol (by linarith)
              refine le_trans (ih (it + 1) _ _ _ (req + 1) j (by omega) ?_) (by omega)
              rw [hstep] at hsum
              linarith

/-- C6: The paginated activity fetch issues at most `maxActivityPages`
page requests per run, and once a fetched page brings the accumulated
trade count to at least `minTradesForStop` (default 200) or the
accumulated `usdcSize` volume to at least `minVolumeForStop`
(default 10000), no further page request is ever issued for that address
— even when the time window is not exhausted, since the bound holds for
every possible page-response function. -/
theorem fetchAllActivity_early_stop (cfg : CollectorConfig)
    (pages : ℕ → List ActivityRecord) (afterTimestamp : ℕ) (j : ℕ) :
    (fetchAllActivity cfg pages afterTimestamp).requests ≤ cfg.maxActivityPages
    ∧ (cfg.minTradesForStop ≤ ∑ i ∈ Finset.range (j + 1), (pages i).length →
        (fetchAllActivity cfg pages afterTimestamp).requests ≤ j + 1)
    ∧ (cfg.minVolumeForStop ≤ ∑ i ∈ Finset.range (j + 1), activityVolume (pages i) →
        (fetchAllActivity cfg pages afterTimestamp).requests ≤ j + 1)
    ∧ CollectorConfig.defaults.minTradesForStop = 200
    ∧ CollectorConfig.defaults.minVolumeForStop = 10000
    ∧ CollectorConfig.defaults.maxActivityPages = 5 := by
  refine ⟨?_, ?_, ?_, rfl, rfl, rfl⟩
  · have h := fetchAllActivityAux_requests_le cfg pages afterTimestamp
      cfg.maxActivityPages 0 [] 0 0 0
    simpa [fetchAllActivity] using h
  · intro hsum
    have h := fetchAllActivityAux_stop_trades cfg pages afterTimestamp
      cfg.maxActivityPages 0 [] 0 0 0 j (by omega)
      (by simpa using hsum)
    simpa [fetchAllActivity] using h
  · intro hsum
    have h := fetchAllActivityAux_stop_volume cfg pages afterTimestamp
      cfg.maxActivityPages 0 [] 0 0 0 j (by omega)
      (by simpa using hsum)
    simpa [fetchAllActivity] using h

/-- Witness for `fetchAllActivity_early_stop`: with a trade minimum of 2
and two-record pages, at most one page is requested; with a volume
minimum of 15 and per-page volume 20, at most one page is requested. -/
theorem fetchAllActivity_early_stop_witness :
    (fetchAllActivity ⟨5, 2, 100000⟩
      (fun _ => [⟨some 10, some 50⟩, ⟨some 10, some 60⟩]) 0).requests ≤ 1
    ∧ (fetchAllActivity ⟨5, 1000, 15⟩
      (fun _ => [⟨some 10, some 50⟩, ⟨some 10, some 60⟩]) 0).requests ≤ 1 := by
  constructor
  · refine (fetchAllActivity_early_stop ⟨5, 2, 100000⟩
      (fun _ => [⟨some 10, some 50⟩, ⟨some 10, some 60⟩]) 0 0).2.1 ?_
    simp
  · refine (fetchAllActivity_early_stop ⟨5, 1000, 15⟩
      (fun _ => [⟨some 10, some 50⟩, ⟨some 10, some 60⟩]) 0 0).2.2.1 ?_
    simp [activityVolume, jsOrZero]
    norm_num

/-- Phase-1 membership: an entry is collected iff its address was in the
input and its fetch succeeded with those metrics. -/
theorem runnerPhase1_mem (phase1 : String → Except String RunnerMetrics)
    (addresses : List String) (a : String) (m : RunnerMetrics) :
    (⟨a, m⟩ : Phase1Item) ∈ (runnerPhase1 phase1 addresses).1 ↔
      a ∈ addresses ∧ phase1 a = .ok m := by
  induction addresses with
  | nil => simp [runnerPhase1]
  | cons b rest ih =>
    cases hb : phase1 b with
    | ok mb =>
      simp only [runnerPhase1, hb, List.mem_cons, Phase1Item.mk.injEq]
      constructor
      · rintro (⟨rfl, rfl⟩ | h)
        · exact ⟨Or.inl rfl, hb⟩
        · obtain ⟨ha, hm⟩ := ih.mp h
          exact ⟨Or.inr ha, hm⟩
      · rintro ⟨(rfl | ha), hm⟩
        · left
          have heq := hb.symm.trans hm
          simp only [Except.ok.injEq] at heq
          exact ⟨rfl, heq.symm⟩
        · exact Or.inr (ih.mpr ⟨ha, hm⟩)
    | error msg =>
      simp only [runnerPhase1, hb, List.mem_cons]
      rw [ih]
      constructor
      · rintro ⟨ha, hm⟩
        exact ⟨Or.inr ha, hm⟩
      · rintro ⟨(rfl | ha), hm⟩
        · rw [hb] at hm
          exact absurd hm (by simp)
        · exact ⟨ha, hm⟩

/-- Phase-2 fallback: a failing enrichment keeps the phase-1 metrics and
records a `phase2_failure` entry. -/
theorem runnerPhase2_fallback
    (phase2 : String → RunnerMetrics → Except String RunnerMetrics)
    (items : List Phase1Item) (item : Phase1Item) (msg : String)
    (hmem : item ∈ items) (hfail : phase2 item.address item.metrics = .error msg) :
    item.metrics ∈ (runnerPhase2 phase2 items).1 ∧
      (⟨item.address, "phase2_failure", msg⟩ : ErrorEntry) ∈
        (runnerPhase2 phase2 items).2 := by
  induction items with
  | nil => cases hmem
  | cons b rest ih =>
    rcases List.mem_cons.mp hmem with rfl | hmem'
    · simp only [runnerPhase2, hfail]
      exact ⟨List.mem_cons_self _ _, List.mem_cons_self _ _⟩
    · have hr := ih hmem'
      cases hb : phase2 b.address b.metrics with
      | ok mb =>
        simp only [runnerPhase2, hb]
        exact ⟨List.mem_cons_of_mem _ hr.1, hr.2⟩
      | error msgb =>
        simp only [runnerPhase2, hb]
        exact ⟨List.mem_cons_of_mem _ hr.1, List.mem_cons_of_mem _ hr.2⟩

/-- C7: In the two-phase collection: a phase-2 fetch is issued only
for addresses whose phase-1 metrics pass the win-rate/PnL thresholds
(an address failing the phase-1 filter never triggers a phase-2 fetch);
and for an address that passed phase 1, a throwing phase-2 enrichment
leaves the phase-1 metrics in the metrics set handed to the Scorer and
records a `phase2_failure` error entry, rather than dropping the
address. -/
theorem runnerTwoPhase_spec (addresses : List String)
    (phase1 : String → Except String RunnerMetrics)
    (phase2 : String → RunnerMetrics → Except String RunnerMetrics)
    (minWinRate minPnl : ℚ) :
    (∀ a, a ∈ (runnerTwoPhase addresses phase1 phase2 minWinRate minPnl).phase2Calls →
      ∃ m, phase1 a = .ok m ∧ phase1Passes minWinRate minPnl m = true)
    ∧ (∀ a m, phase1 a = .ok m → phase1Passes minWinRate minPnl m = false →
        a ∉ (runnerTwoPhase addresses phase1 phase2 minWinRate minPnl).phase2Calls)
    ∧ (∀ a m msg, a ∈ addresses → phase1 a = .ok m →
        phase1Passes minWinRate minPnl m = true → phase2 a m = .error msg →
        m ∈ (runnerTwoPhase addresses phase1 phase2 minWinRate minPnl).metricsResults
        ∧ (⟨a, "phase2_failure", msg⟩ : ErrorEntry) ∈
            (runnerTwoPhase addresses phase1 phase2 minWinRate minPnl).errors) := by
  have hcall : ∀ a,
      a ∈ (runnerTwoPhase addresses phase1 phase2 minWinRate minPnl).phase2Calls →
      ∃ m, phase1 a = .ok m ∧ phase1Passes minWinRate minPnl m = true := by
    intro a ha
    simp only [runnerTwoPhase, List.mem_map] at ha
    obtain ⟨item, hitem, rfl⟩ := ha
    have hf := List.mem_filter.mp hitem
    have hp1 := (runnerPhase1_mem phase1 addresses item.address item.metrics).mp
      (by cases item; exact hf.1)
    exact ⟨item.metrics, hp1.2, hf.2⟩
  refine ⟨hcall, ?_, ?_⟩
  · intro a m hok hfail ha
    obtain ⟨m', hok', hpass'⟩ := hcall a ha
    rw [hok] at hok'
    simp only [Except.ok.injEq] at hok'
    rw [← hok'] at hpass'
    rw [hpass'] at hfail
    cases hfail
  · intro a m msg ha hok hpass hthrow
    have hitem : (⟨a, m⟩ : Phase1Item) ∈
        (runnerPhase1 phase1 addresses).1.filter
          (fun r => phase1Passes minWinRate minPnl r.metrics) :=
      List.mem_filter.mpr ⟨(runnerPhase1_mem phase1 addresses a m).mpr ⟨ha, hok⟩, hpass⟩
    have hfb := runnerPhase2_fallback phase2 _ ⟨a, m⟩ msg hitem hthrow
    exact ⟨hfb.1, by simpa [runnerTwoPhase] using Or.inr hfb.2⟩

/-- Witness for `runnerTwoPhase_spec`: address `"a"` passes phase 1 with
win rate `3/4 ≥ 1/2`, its phase-2 fetch throws, and its phase-1 metrics
survive into the scored set with a recorded error; address `"b"` fails
phase 1 (`1/4 < 1/2`) and never triggers a phase-2 fetch. -/
theorem runnerTwoPhase_spec_witness :
    (⟨some (3/4), 10, 5, 2, 0⟩ : RunnerMetrics) ∈
      (runnerTwoPhase ["a", "b"]
        (fun addr => if addr = "a" then .ok ⟨some (3/4), 10, 5, 2, 0⟩
          else .ok ⟨some (1/4), 10, 5, 2, 0⟩)
        (fun _ _ => .error "boom") (1/2) 0).metricsResults
    ∧ (⟨"a", "phase2_failure", "boom"⟩ : ErrorEntry) ∈
      (runnerTwoPhase ["a", "b"]
        (fun addr => if addr = "a" then .ok ⟨some (3/4), 10, 5, 2, 0⟩
          else .ok ⟨some (1/4), 10, 5, 2, 0⟩)
        (fun _ _ => .error "boom") (1/2) 0).errors
    ∧ "b" ∉ (runnerTwoPhase ["a", "b"]
        (fun addr => if addr = "a" then .ok ⟨some (3/4), 10, 5, 2, 0⟩
          else .ok ⟨some (1/4), 10, 5, 2, 0⟩)
        (fun _ _ => .error "boom") (1/2) 0).phase2Calls := by
  have h := runnerTwoPhase_spec ["a", "b"]
    (fun addr => if addr = "a" then .ok ⟨some (3/4), 10, 5, 2, 0⟩
      else .ok ⟨some (1/4), 10, 5, 2, 0⟩)
    (fun _ _ => .error "boom") (1/2) 0
  have hmain := h.2.2 "a" ⟨some (3/4), 10, 5, 2, 0⟩ "boom" (by simp) (by simp)
    (by norm_num [phase1Passes]) rfl
  refine ⟨hmain.1, hmain.2, ?_⟩
  exact h.2.1 "b" ⟨some (1/4), 10, 5, 2, 0⟩ (by simp)
    (by norm_num [phase1Passes])

/-- C1 (amended): The original scorer variant uses exactly the spec's
`strictWinRate ?? proxyWinRate ?? 0` as the win rate of its composite
score; the 90d variant gives `winRate90d` precedence
(`winRate90d ?? strictWinRate ?? proxyWinRate ?? 0`), so it agrees with
the spec's formula exactly when `winRate90d` is null. -/
theorem scorer_effectiveWinRate (w : ScorerWeights) (m : ScorerInput) :
    (scoreOrig w m).compositeScore =
      jsRound4 (w.winRateWeight * specEffectiveWinRate m +
        w.volumeWeight * normalizeVolume (m.totalVolumeUsd.getD 0) +
        w.confidenceWeight * (m.confidenceScore.getD 0))
    ∧ (score90d w m).compositeScore =
      jsRound4 (w.winRateWeight *
          ((m.winRate90d.or (m.strictWinRate.or m.proxyWinRate)).getD 0) +
        w.volumeWeight * normalizeVolume ((m.volume90d.or m.totalVolumeUsd).getD 0) +
        w.confidenceWeight * (m.confidenceScore.getD 0))
    ∧ (m.winRate90d = none →
      (score90d w m).compositeScore =
        jsRound4 (w.winRateWeight * specEffectiveWinRate m +
          w.volumeWeight * normalizeVolume ((m.volume90d.or m.totalVolumeUsd).getD 0) +
          w.confidenceWeight * (m.confidenceScore.getD 0))) := by
  refine ⟨rfl, rfl, fun h90 => ?_⟩
  simp only [score90d, specEffectiveWinRate, h90, Option.none_or]

/-- Witness for `scorer_effectiveWinRate`: the null-`winRate90d` case at
a concrete input with `strictWinRate = 3/4`. -/
theorem scorer_effectiveWinRate_witness :
    (score90d ScorerWeights.defaults
      { strictWinRate := some (3/4) }).compositeScore =
      jsRound4 (ScorerWeights.defaults.winRateWeight *
          specEffectiveWinRate { strictWinRate := some (3/4) } +
        ScorerWeights.defaults.volumeWeight *
          normalizeVolume ((Option.or (none : Option ℝ) none).getD 0) +
        ScorerWeights.defaults.confidenceWeight *
          ((none : Option ℝ).getD 0)) :=
  (scorer_effectiveWinRate ScorerWeights.defaults
    { strictWinRate := some (3/4) }).2.2 rfl

/-- C1 counterexample: For the 90d scorer variant the claimed formula
fails: at `winRate90d = 1`, `strictWinRate = 0` (both non-null) and zero
volume/confidence, the computed composite score is `1/2`, while the
claim's `strictWinRate ?? proxyWinRate ?? 0` choice (here `0`) would give
composite score `0` under the same weights — so a field other than
`strictWinRate`/`proxyWinRate` does influence the choice. -/
theorem scorer_effectiveWinRate_cex :
    (score90d ScorerWeights.defaults
      { winRate90d := some 1, strictWinRate := some 0,
        volume90d := some 0 }).compositeScore = 1/2
    ∧ specEffectiveWinRate
        { winRate90d := some 1, strictWinRate := some 0,
          volume90d := some 0 } = 0
    ∧ jsRound4 (ScorerWeights.defaults.winRateWeight *
        specEffectiveWinRate
          { winRate90d := some 1, strictWinRate := some 0,
            volume90d := some 0 } +
        ScorerWeights.defaults.volumeWeight * normalizeVolume 0 +
        ScorerWeights.defaults.confidenceWeight * 0) = 0 := by
  have hnv0 : normalizeVolume 0 = 0 := by
    simp [normalizeVolume]
  refine ⟨?_, ?_, ?_⟩
  · simp only [score90d, ScorerWeights.defaults, Option.or_some, Option.getD_some,
      Option.getD_none, Option.none_or, hnv0]
    rw [jsRound4]
    have h5000 : ((0.5 : ℝ) * 1 + 0.3 * 0 + 0.2 * 0) * 10000 = ((5000 : ℤ) : ℝ) := by
      norm_num
    rw [h5000, round_intCast]
    norm_num
  · simp [specEffectiveWinRate]
  · simp only [specEffectiveWinRate, Option.or_some, Option.getD_some, hnv0,
      ScorerWeights.defaults]
    rw [jsRound4]
    have h0 : ((0.5 : ℝ) * 0 + 0.3 * 0 + 0.2 * 0) * 10000 = ((0 : ℤ) : ℝ) := by
      norm_num
    rw [h0, round_intCast]
    norm_num

/-- C8: normalizeVolume is `0` for every volume `≤ 0`, equals
`min(log10(v + 1) / log10(1000001), 1)` for `v > 0`, is monotone
non-decreasing, and equals exactly `1` for every volume `≥ 1000000`. -/
theorem normalizeVolume_spec :
    (∀ v : ℝ, v ≤ 0 → normalizeVolume v = 0)
    ∧ (∀ v : ℝ, 0 < v → normalizeVolume v =
        min (Real.logb 10 (v + 1) / Real.logb 10 1000001) 1)
    ∧ (∀ v₁ v₂ : ℝ, v₁ ≤ v₂ → normalizeVolume v₁ ≤ normalizeVolume v₂)
    ∧ (∀ v : ℝ, 1000000 ≤ v → normalizeVolume v = 1) := by
  have hden : 0 < Real.logb 10 1000001 :=
    Real.logb_pos (by norm_num) (by norm_num)
  refine ⟨?_, ?_, ?_, ?_⟩
  · intro v hv
    simp [normalizeVolume, hv]
  · intro v hv
    simp [normalizeVolume, not_le.mpr hv]
  · intro v₁ v₂ hle
    unfold normalizeVolume
    split_ifs with h1 h2 h2
    · exact le_refl 0
    · have hnum : 0 ≤ Real.logb 10 (v₂ + 1) :=
        Real.logb_nonneg (by norm_num) (by push_neg at h2; linarith)
      exact le_min (div_nonneg hnum hden.le) zero_le_one
    · exact absurd (hle.trans h2) h1
    · push_neg at h1 h2
      refine min_le_min ?_ (le_refl 1)
      have hlog : Real.logb 10 (v₁ + 1) ≤ Real.logb 10 (v₂ + 1) :=
        Real.logb_le_logb_of_le (by norm_num) (by linarith) (by linarith)
      exact div_le_div_of_nonneg_right hlog hden.le
  · intro v hv
    have hvpos : ¬ v ≤ 0 := by norm_num at hv ⊢; linarith
    unfold normalizeVolume
    rw [if_neg hvpos]
    have hge : Real.logb 10 1000001 ≤ Real.logb 10 (v + 1) :=
      Real.logb_le_logb_of_le (by norm_num) (by norm_num) (by linarith)
    have h1le : (1 : ℝ) ≤ Real.logb 10 (v + 1) / Real.logb 10 1000001 :=
      (one_le_div hden).mpr hge
    exact min_eq_right h1le

/-- Witness for `normalizeVolume_spec`: `normalizeVolume (-5) = 0` and
`normalizeVolume 1000000 = 1`. -/
theorem normalizeVolume_spec_witness :
    normalizeVolume (-5) = 0 ∧ normalizeVolume 1000000 = 1 :=
  ⟨normalizeVolume_spec.1 (-5) (by norm_num),
   normalizeVolume_spec.2.2.2 1000000 (by norm_num)⟩

end PolymarketScanner
